import Mathlib

/-!
Verification of the myrpc server core (package `server`, plus
`common/utils.go`) against its specification.

The Go source is shallowly embedded: each Go function that the claims
touch becomes a Lean function over explicit state.  Effects that live
outside the embedded functions (the codec connection, the reflective
service call, the plugin hooks) are passed in as explicit outcome values,
and the embedded functions record the calls they would make (body reads,
register-hook invocations, written responses) so that theorems can speak
about them.  Pieces of the repository that are not part of the provided
source (the `Context` method internals, the service builder, the
`common` error-type constants) are modelled from the spec and are marked
as such in their doc comments.
-/

/-- The request header (Go `net/rpc.Request`): `ServiceMethod` and `Seq`. -/
structure Request where
  ServiceMethod : String
  Seq : Nat
deriving Repr, DecidableEq

/-- The response header (Go `net/rpc.Response`): `ServiceMethod`, `Seq`, `Error`. -/
structure Response where
  ServiceMethod : String
  Seq : Nat
  Error : String
deriving Repr, DecidableEq

/-- Modelled from the spec: the `rpc_error_type` tag stored in a `Context`.
The constants `common.ErrorTypeServerService` and
`common.ErrorTypeServerServicePanic` live in the `common` package, which is
not part of the provided source; the spec names the two kinds
`server_service` and `server_service_panic`.  `noError` is the Go zero
value of the tag. -/
inductive ErrorType
  | noError
  | serverService
  | serverServicePanic
deriving Repr, DecidableEq

/-- An abstract decoded Go value (`reflect.Value`).  `zero` is the zero
`reflect.Value{}`; `val n` stands for a concrete decoded or computed
value. -/
inductive GoValue
  | zero
  | val (n : Nat)
deriving Repr, DecidableEq

/-- The body written with a response: either the `invalidRequest` sentinel
(`var invalidRequest = struct{}{}`) or the reply value produced by the
invoker. -/
inductive Body
  | invalidReq
  | reply (v : GoValue)
deriving Repr, DecidableEq

/-- One framed response as handed to `ctx.writeResponse`: the response
header together with the body value. -/
structure WrittenResponse where
  header : Response
  body : Body
deriving Repr, DecidableEq

/-- The per-call `Context`.  Fields follow the Go struct as used by
`server.go` and described by the spec: the codec connection (an `Option`,
`none` meaning the nil/unset connection), the `Store` data bag (`none`
meaning a nil map), the request and response headers, the resolved
service (`none` meaning nil), the parsed query values, the decoded
argument and computed reply, and the `rpc_error_type` tag.  The
back-pointer to the server is not represented. -/
structure Context where
  codecConn : Option Nat
  dataMap : Option (List (String × String))
  req : Request
  resp : Response
  service : Option Nat
  query : List (String × String)
  argv : GoValue
  replyv : GoValue
  rpcErrorType : ErrorType
deriving Repr, DecidableEq

/-- The fully zero-valued `Context`, as produced by the pool's `New`
function (all header fields zero, nil connection, nil data map, nil
service, zero argument and reply, zero error tag). -/
def zeroContext : Context :=
  { codecConn := none
    dataMap := none
    req := { ServiceMethod := "", Seq := 0 }
    resp := { ServiceMethod := "", Seq := 0, Error := "" }
    service := none
    query := []
    argv := GoValue.zero
    replyv := GoValue.zero
    rpcErrorType := ErrorType.noError }

/-- `Server.getContext`: takes a context from the pool, attaches the codec
connection and gives the data bag a fresh empty map.  The pooled context
is passed explicitly (the pool hands back either a recycled context or a
fresh `zeroContext`). -/
def Server.getContext (pooled : Context) (conn : Nat) : Context :=
  { pooled with codecConn := some conn, dataMap := some [] }

/-- `Server.putContext`: resets the context before returning it to the
pool.  Exactly the fields the Go code assigns are reset: `data.data`,
`codecConn`, `req.ServiceMethod`, `req.Seq`, `resp.Error`, `resp.Seq`,
`resp.ServiceMethod`, `service`, `query`, `argv`, `replyv`.  The
`rpcErrorType` field is not assigned by the Go code and is therefore left
unchanged. -/
def Server.putContext (ctx : Context) : Context :=
  { ctx with
    dataMap := none
    codecConn := none
    req := { ServiceMethod := "", Seq := 0 }
    resp := { Error := "", Seq := 0, ServiceMethod := "" }
    service := none
    query := []
    argv := GoValue.zero
    replyv := GoValue.zero }

/-- `Server.sendResponse`: copies `ServiceMethod` from the request header
into the response header; when `errmsg` is non-empty stores it in
`resp.Error` and selects the `invalidRequest` sentinel as body, otherwise
selects the computed reply value; copies `Seq` from the request; then
writes the response (header, body) under the send mutex.  Returns the
updated context together with the written response. -/
def Server.sendResponse (ctx : Context) (errmsg : String) : Context × WrittenResponse :=
  let resp1 := { ctx.resp with ServiceMethod := ctx.req.ServiceMethod }
  let hb : Response × Body :=
    if errmsg ≠ "" then ({ resp1 with Error := errmsg }, Body.invalidReq)
    else (resp1, Body.reply ctx.replyv)
  let resp2 := { hb.1 with Seq := ctx.req.Seq }
  ({ ctx with resp := resp2 }, { header := resp2, body := hb.2 })

/-- The outcome of `ctx.service.Call(ctx.argv, ctx)` as seen by
`Server.call`: either the call returned a reply and an error value
(`none` meaning a nil error), or it panicked with some payload. -/
inductive CallOutcome
  | normal (reply : GoValue) (err : Option String)
  | panics (payload : String)
deriving Repr, DecidableEq

/-- `Server.call`: invokes the service.  On a normal return it stores the
reply, and when the error is non-nil sets `rpcErrorType` to
`serverService` and uses the error text as the response error message.
On a panic the deferred `recover` fires: it sets `rpcErrorType` to
`serverServicePanic` and sends a response with message "Service Panic!"
(the reply value is never assigned on that path). -/
def Server.call (outcome : CallOutcome) (ctx : Context) : Context × WrittenResponse :=
  match outcome with
  | CallOutcome.normal r none => Server.sendResponse { ctx with replyv := r } ""
  | CallOutcome.normal r (some m) =>
      Server.sendResponse { ctx with replyv := r, rpcErrorType := ErrorType.serverService } m
  | CallOutcome.panics _ =>
      Server.sendResponse { ctx with rpcErrorType := ErrorType.serverServicePanic } "Service Panic!"

/-- The outcome of `ctx.readRequestHeader()` (a `Context` method whose body
is not part of the provided source; its result triple and side effects are
taken from the spec's `readRequest` contract).  On success the request
header has been decoded and the service resolved, and the triple is
`(keep_reading = true, suppress_response = false, err = nil)`.  On failure
the triple `(keepReading, notSend, msg)` is returned with a non-nil
error: `keepReading = true` means the header itself was framed cleanly
but header processing or dispatch failed (for example an unknown
`service_method`). -/
inductive HeaderOutcome
  | ok (req : Request) (svc : Nat)
  | fail (keepReading : Bool) (notSend : Bool) (msg : String)
deriving Repr, DecidableEq

/-- One body read performed against the codec connection: either
`ReadRequestBody(nil)` (decode into the null sink, discarding the body)
or `readRequestBody(argv.Interface())` (decode into the argument
value). -/
inductive BodyRead
  | nilSink
  | intoArgv
deriving Repr, DecidableEq

/-- `Server.readRequest`: reads the request header; when that fails with
`keepReading` still true, discards the body via
`ctx.codecConn.ReadRequestBody(nil)` before returning; when the header
succeeds, allocates the argument value and decodes the body into it.
The decoded argument `arg` and a possible body-decode error `bodyErr`
are passed in explicitly (the codec is external).  Returns the updated
context, the `(keepReading, notSend, err)` triple, and the list of body
reads performed against the connection. -/
def Server.readRequest (ctx : Context) (h : HeaderOutcome) (arg : GoValue)
    (bodyErr : Option String) : Context × (Bool × Bool × Option String) × List BodyRead :=
  match h with
  | HeaderOutcome.fail keepReading notSend msg =>
      if keepReading then (ctx, (keepReading, notSend, some msg), [BodyRead.nilSink])
      else (ctx, (keepReading, notSend, some msg), [])
  | HeaderOutcome.ok req svc =>
      ({ ctx with req := req, service := some svc, argv := arg },
       (true, false, bodyErr), [BodyRead.intoArgv])

/-- One iteration's worth of external events for the connection loop: the
header-read outcome, and — used only when the header and body succeed —
the decoded argument, the body-decode error and the service-call
outcome. -/
structure ConnEvent where
  header : HeaderOutcome
  arg : GoValue
  bodyErr : Option String
  outcome : CallOutcome
deriving Repr, DecidableEq

/-- `Server.ServeConn`'s read loop, modelled over the list of per-iteration
external events while the server is running.  Each iteration draws a
context from the pool (`getContext`), runs `readRequest`, and then:
on `err = nil` dispatches the call (the spawned call task is serialised
inline, so its response appears in decode order); on an error with
`keepReading = true` it sends an error response unless `notSend` is set,
returns the context and continues; with `keepReading = false` it breaks
the loop and the connection is closed.  The result is the list of
responses written on the connection. -/
def Server.serveConn (conn : Nat) : List ConnEvent → List WrittenResponse
  | [] => []
  | ev :: rest =>
    let ctx0 := Server.getContext zeroContext conn
    let step := Server.readRequest ctx0 ev.header ev.arg ev.bodyErr
    match step.2.1 with
    | (_, _, none) => (Server.call ev.outcome step.1).2 :: Server.serveConn conn rest
    | (keepReading, notSend, some m) =>
      if keepReading then
        if notSend then Server.serveConn conn rest
        else (Server.sendResponse step.1 m).2 :: Server.serveConn conn rest
      else []

/-- The result of `Server.ServeRequest`: the returned error (`none` for a
nil return), the responses written, whether a header read was attempted
on the connection, the body reads performed, and the number of
`callGroup.Add(1)` / `callGroup.Done()` calls made. -/
structure ServeRequestResult where
  result : Option String
  written : List WrittenResponse
  headerRead : Bool
  bodyReads : List BodyRead
  callGroupAdds : Nat
  callGroupDones : Nat
deriving Repr, DecidableEq

/-- `Server.ServeRequest`: serves a single request synchronously.  When
the server is not running it returns the error "rpc: server has stopped"
at once, reading nothing from the connection and touching no server
state.  Otherwise it performs one iteration of the connection state
machine (context from pool, `readRequest`, dispatch or error response)
and returns the read error, if any. -/
def Server.ServeRequest (running : Bool) (conn : Nat) (ev : ConnEvent) : ServeRequestResult :=
  if running = false then
    { result := some "rpc: server has stopped", written := [], headerRead := false
      bodyReads := [], callGroupAdds := 0, callGroupDones := 0 }
  else
    let ctx0 := Server.getContext zeroContext conn
    let step := Server.readRequest ctx0 ev.header ev.arg ev.bodyErr
    match step.2.1 with
    | (_, _, none) =>
        { result := none, written := [(Server.call ev.outcome step.1).2], headerRead := true
          bodyReads := step.2.2, callGroupAdds := 1, callGroupDones := 1 }
    | (keepReading, notSend, some m) =>
        if keepReading && !notSend then
          { result := some m, written := [(Server.sendResponse step.1 m).2], headerRead := true
            bodyReads := step.2.2, callGroupAdds := 1, callGroupDones := 1 }
        else
          { result := some m, written := [], headerRead := true
            bodyReads := step.2.2, callGroupAdds := 1, callGroupDones := 1 }

/-- The server state touched by `Server.close`: whether a listener has been
set (`serveListener` stores it), whether it has been closed, the
`running` flag, and the number of in-flight calls tracked by the
`callGroup` wait-group. -/
structure SrvState where
  hasListener : Bool
  listenerClosed : Bool
  running : Bool
  inflight : Nat
deriving Repr, DecidableEq

/-- `Server.close`: returns nil at once when no listener was ever set;
otherwise closes the listener, and if the server was already stopped
returns nil.  Otherwise it flips `running` to false and waits on the
in-flight `callGroup` against the context's deadline: `drained = true`
means the wait-group emptied before `ctx.Done()` fired, giving a nil
return; `drained = false` means the deadline fired first and `ctx.Err()`
(passed in as `ctxErr`) is returned.  In-flight calls are never
terminated: `inflight` is untouched. -/
def Server.close (st : SrvState) (ctxErr : String) (drained : Bool) :
    SrvState × Option String :=
  if st.hasListener = false then (st, none)
  else
    let st1 := { st with listenerClosed := true }
    if st1.running = false then (st1, none)
    else
      let st2 := { st1 with running := false }
      if drained then (st2, none) else (st2, some ctxErr)

/-- Go's `strings.Contains`, on the character lists of the two strings:
true when `needle` occurs as a contiguous substring of `hay`. -/
def goContains (hay needle : List Char) : Bool :=
  needle.isPrefixOf hay ||
    match hay with
    | [] => false
    | _ :: t => goContains t needle

/-- The accept loop's error handling in `serveListener`: when `Accept`
fails, the error is logged at debug level unless its text contains
"use of closed network connection", in which case it is silently
swallowed; in both cases the loop returns.  The result is the log line
emitted, if any. -/
def acceptLoopLog (errmsg : String) : Option String :=
  if goContains errmsg.data ("use of closed network connection").data then none
  else some ("rpc: accept: " ++ errmsg)

/-- The character class of `common.CheckSname`'s regular expression
`^[a-zA-Z0-9_\.\-]*$`: ASCII letters, digits, underscore, dot, hyphen. -/
def snameChar (c : Char) : Bool :=
  c.isAlpha || c.isDigit || c == '_' || c == '.' || c == '-'

/-- `common.CheckSname`: returns nil (`none`) when every character of the
name lies in `[a-zA-Z0-9_.\-]`, and the invalid-path error otherwise. -/
def CheckSname (sname : String) : Option String :=
  if sname.data.all snameChar then none
  else some ("rpc: invalid path: " ++ sname)

/-- The character class of the registered-path invariant (the sname
class `[A-Za-z0-9._-]` extended with the slash): a sname character or
the path separator. -/
def pathChar (c : Char) : Bool :=
  snameChar c || c == '/'

/-- Whether every character of a registered path lies in the sname
class `[A-Za-z0-9._-]` extended with the slash. -/
def pathOK (p : String) : Bool :=
  p.data.all pathChar

/-- Modelled from the spec: `ServiceBuilder.URIEncode` (the service
builder is not part of the provided source).  The spec's default
URL-style scheme gives the path `/segment/segment/…` over the supplied
segments. -/
def URIEncode (segments : List String) : String :=
  String.mk ((segments.map (fun s => '/' :: s.data)).flatten)

/-- Modelled from the spec: `ServiceBuilder.NewServices` (not part of the
provided source) produces one service per qualifying method; each
service's path is the URL-style encoding of the group/name segments
followed by that method's (normalised) name segment.  Only the produced
path list matters to `Server.register`, so the model returns the
paths. -/
def NewServicePaths (pathSegments : List String) (methodNames : List String) : List String :=
  methodNames.map (fun m => URIEncode (pathSegments ++ [m]))

/-- Which plugin container a register hook ran on: the server-wide
container (`server.PluginContainer`) or the scoped group/service
container (`p`). -/
inductive ContainerTag
  | serverWide
  | scoped
deriving Repr, DecidableEq

/-- One invocation of the register hook (`doRegister`): the container it
ran on, the service path, and the metadata list it received. -/
structure HookCall where
  tag : ContainerTag
  path : String
  metadata : List String
deriving Repr, DecidableEq

/-- The duplicate-path registration error
(`common.ErrServiceAlreadyExists`). -/
def dupErrMsg (spath : String) : String :=
  "rpc: service already defined: " ++ spath

/-- The registration state of a `Server` that `register` reads and
writes: the set of registered paths (keys of `serviceMap`, in insertion
order), the `routers` list, and the base metadata. -/
structure RegState where
  serviceMap : List String
  routers : List String
  baseMetadata : String
deriving Repr, DecidableEq

/-- The per-service loop of `Server.register`.  For each service path, in
order: record a duplicate error if the path is already present in the
service map; append the base metadata to the (loop-carried!) metadata
slice; invoke the register hook on the server-wide container and then on
the scoped container, each receiving the current metadata; append the
path to `routers`; store the service in the map.  Accumulates the map,
the routers, the hook calls and the errors. -/
def registerLoop (base : String) (services : List String) (metadata : List String)
    (map routers : List String) (calls : List HookCall) (errs : List String) :
    List String × List String × List HookCall × List String :=
  match services with
  | [] => (map, routers, calls, errs)
  | spath :: rest =>
    let errs1 := if spath ∈ map then errs ++ [dupErrMsg spath] else errs
    let md := metadata ++ [base]
    let calls1 := calls ++
      [{ tag := ContainerTag.serverWide, path := spath, metadata := md },
       { tag := ContainerTag.scoped, path := spath, metadata := md }]
    registerLoop base rest md (map ++ [spath]) (routers ++ [spath]) calls1 errs1

/-- Go's byte-lexicographic string order (`sort.Strings` / `<` on
strings), on character lists; UTF-8 byte order and code-point order
agree. -/
def strLe : List Char → List Char → Bool
  | [], _ => true
  | _ :: _, [] => false
  | a :: as, b :: bs =>
    if a.toNat < b.toNat then true
    else if b.toNat < a.toNat then false
    else strLe as bs

/-- Lexicographic order on strings, as `sort.Strings` uses. -/
def strLeS (a b : String) : Bool :=
  strLe a.data b.data

/-- The lexicographic string order as a decidable relation. -/
def strLeP (a b : String) : Prop :=
  strLeS a b = true

instance : DecidableRel strLeP :=
  fun a b => inferInstanceAs (Decidable (strLeS a b = true))

/-- `sort.Strings`: sorts a string slice in ascending lexicographic
order (modelled with insertion sort; `sort.Strings` is an unstable
comparison sort with the same result on distinct keys). -/
def sortStrings (l : List String) : List String :=
  List.insertionSort strLeP l

/-- `Server.register`: builds the services (their path list is `services`
here), fails when none qualifies, runs the per-service loop, and then
either reports all accumulated errors as one fatal multi-error
(`log.Fatal`, modelled as `Except.error`, so the server refuses to
start) or commits the new service map, sorts the routers, and returns
the hook invocations that were made. -/
def Server.register (st : RegState) (services : List String) (metadata : List String) :
    Except String (RegState × List HookCall) :=
  if services = [] then Except.error "rpc: can not register invalid service"
  else
    let r := registerLoop st.baseMetadata services metadata st.serviceMap st.routers [] []
    if r.2.2.2 = [] then
      Except.ok ({ st with serviceMap := r.1, routers := sortStrings r.2.1 }, r.2.2.1)
    else Except.error (String.join r.2.2.2)

theorem strLe_total : ∀ as bs : List Char, (strLe as bs || strLe bs as) = true := by
  intro as
  induction as with
  | nil => intro bs; simp [strLe]
  | cons a as ih =>
    intro bs
    cases bs with
    | nil => simp [strLe]
    | cons b bs =>
      by_cases h1 : a.toNat < b.toNat
      · simp [strLe, h1]
      · by_cases h2 : b.toNat < a.toNat
        · simp [strLe, h1, h2]
        · simpa [strLe, h1, h2] using ih bs

theorem strLe_trans : ∀ as bs cs : List Char,
    strLe as bs = true → strLe bs cs = true → strLe as cs = true := by
  intro as
  induction as with
  | nil => intro bs cs _ _; rfl
  | cons a as ih =>
    intro bs cs hab hbc
    cases bs with
    | nil => simp [strLe] at hab
    | cons b bs =>
      cases cs with
      | nil => simp [strLe] at hbc
      | cons c cs =>
        simp only [strLe] at hab hbc ⊢
        by_cases h1 : a.toNat < b.toNat
        · by_cases h2 : b.toNat < c.toNat
          · simp [Nat.lt_trans h1 h2]
          · simp only [h2, if_false] at hbc
            by_cases h3 : c.toNat < b.toNat
            · simp [h3] at hbc
            · have hac : a.toNat < c.toNat := by omega
              simp [hac]
        · simp only [h1, if_false] at hab
          by_cases h4 : b.toNat < a.toNat
          · simp [h4] at hab
          · simp only [h4, if_false] at hab
            by_cases h2 : b.toNat < c.toNat
            · have hac : a.toNat < c.toNat := by omega
              simp [hac]
            · simp only [h2, if_false] at hbc
              by_cases h3 : c.toNat < b.toNat
              · simp [h3] at hbc
              · simp only [h3, if_false] at hbc
                have hac1 : ¬ a.toNat < c.toNat := by omega
                have hac2 : ¬ c.toNat < a.toNat := by omega
                simp only [hac1, hac2, if_false]
                exact ih bs cs hab hbc

/-- C2: for every call for which `sendResponse` writes a response, the
written response header's `Seq` and `ServiceMethod` equal the request
header's `Seq` and `ServiceMethod` of the same call (the context carries
both headers of one call). -/
theorem sendResponse_mirrors_request (ctx : Context) (errmsg : String) :
    (Server.sendResponse ctx errmsg).2.header.Seq = ctx.req.Seq ∧
    (Server.sendResponse ctx errmsg).2.header.ServiceMethod = ctx.req.ServiceMethod := by
  unfold Server.sendResponse
  by_cases h : errmsg = "" <;> simp [h]

/-- C3: a panicking invoker is recovered by `Server.call`: the context's
`rpcErrorType` becomes `serverServicePanic`, an error response with
message "Service Panic!" is written for that call, and the connection is
not torn down — the `ServeConn` read loop handles the event by emitting
exactly that response and then continuing with the remaining requests of
the same connection. -/
theorem call_panic_recovered (conn : Nat) (req : Request) (svc : Nat) (arg : GoValue)
    (p : String) (rest : List ConnEvent) (ctx : Context) :
    (Server.call (CallOutcome.panics p) ctx).1.rpcErrorType = ErrorType.serverServicePanic ∧
    (Server.call (CallOutcome.panics p) ctx).2.header.Error = "Service Panic!" ∧
    Server.serveConn conn
        ({ header := HeaderOutcome.ok req svc, arg := arg, bodyErr := none,
           outcome := CallOutcome.panics p } :: rest)
      = (Server.call (CallOutcome.panics p)
          { Server.getContext zeroContext conn with
            req := req, service := some svc, argv := arg }).2
        :: Server.serveConn conn rest := by
  refine ⟨rfl, rfl, rfl⟩

/-- C4: whenever `readRequest` sees a header read with
`keepReading = true` but a failed header processing or dispatch, it still
consumes the request body from the codec connection before returning,
decoding into the null sink; and on header success the body is likewise
always read (into the argument value), so the stream stays framed. -/
theorem readRequest_always_consumes_body (ctx : Context) (ns : Bool) (m : String)
    (arg : GoValue) (bodyErr : Option String) (req : Request) (svc : Nat) :
    (Server.readRequest ctx (HeaderOutcome.fail true ns m) arg bodyErr).2.2
      = [BodyRead.nilSink] ∧
    (Server.readRequest ctx (HeaderOutcome.ok req svc) arg bodyErr).2.2
      = [BodyRead.intoArgv] := by
  exact ⟨rfl, rfl⟩

/-- C5: when `readRequest` returns `keepReading = true`,
`notSend = true` and a non-nil error, the connection loop writes no
response at all for that request — the iteration contributes nothing to
the connection's output and the loop proceeds to the next header. -/
theorem suppressed_call_writes_nothing (conn : Nat) (m : String) (arg : GoValue)
    (bodyErr : Option String) (oc : CallOutcome) (rest : List ConnEvent) :
    Server.serveConn conn
        ({ header := HeaderOutcome.fail true true m, arg := arg, bodyErr := bodyErr,
           outcome := oc } :: rest)
      = Server.serveConn conn rest := by
  rfl

/-- C6: in `sendResponse`, a non-empty error message selects the
`invalidRequest` sentinel as body and puts the error string in the
response header, while an empty error message selects the invoker's
reply value as body and leaves the header's error field empty (the
context's response error is empty before the send, as it is for every
pooled context). -/
theorem sendResponse_body_selection (ctx : Context) (errmsg : String)
    (h : ctx.resp.Error = "") :
    (errmsg ≠ "" →
      (Server.sendResponse ctx errmsg).2.body = Body.invalidReq ∧
      (Server.sendResponse ctx errmsg).2.header.Error = errmsg) ∧
    (errmsg = "" →
      (Server.sendResponse ctx errmsg).2.body = Body.reply ctx.replyv ∧
      (Server.sendResponse ctx errmsg).2.header.Error = "") := by
  constructor
  · intro hne
    unfold Server.sendResponse
    simp [hne]
  · intro he
    subst he
    unfold Server.sendResponse
    simp [h]

/-- Witness for C6 at a concrete context and error message. -/
theorem sendResponse_body_selection_witness :
    ({ zeroContext with replyv := GoValue.val 7 } : Context).resp.Error = "" ∧
    (("boom" ≠ "" →
      (Server.sendResponse { zeroContext with replyv := GoValue.val 7 } "boom").2.body
        = Body.invalidReq ∧
      (Server.sendResponse { zeroContext with replyv := GoValue.val 7 } "boom").2.header.Error
        = "boom") ∧
    ("boom" = "" →
      (Server.sendResponse { zeroContext with replyv := GoValue.val 7 } "boom").2.body
        = Body.reply ({ zeroContext with replyv := GoValue.val 7 } : Context).replyv ∧
      (Server.sendResponse { zeroContext with replyv := GoValue.val 7 } "boom").2.header.Error
        = "")) :=
  ⟨rfl, sendResponse_body_selection { zeroContext with replyv := GoValue.val 7 } "boom" rfl⟩

/-- C1 (code bug): `putContext` resets every field it assigns — data bag,
connection, both headers, service, query, argument and reply — but it
never assigns `rpcErrorType`, so a context recycled after a failed or
panicking call carries its old `rpc_error_type` tag back out of the pool:
after a panicked call the fetched context has
`rpcErrorType = serverServicePanic`, not the zero value the spec
requires. -/
theorem putContext_leaves_rpcErrorType :
    (∀ ctx : Context,
      Server.putContext ctx = { zeroContext with rpcErrorType := ctx.rpcErrorType }) ∧
    (Server.putContext
        (Server.call (CallOutcome.panics "boom") (Server.getContext zeroContext 0)).1).rpcErrorType
      = ErrorType.serverServicePanic ∧
    (Server.getContext
        (Server.putContext
          (Server.call (CallOutcome.panics "boom") (Server.getContext zeroContext 0)).1)
        1).rpcErrorType
      ≠ ErrorType.noError := by
  refine ⟨fun ctx => rfl, rfl, by decide⟩

/-- C8: `close` with an armed listener and a running server flips
`running` to false, leaves the in-flight call count untouched, returns
nil when the wait-group drains before the deadline and the context's
error when the deadline fires first; and the accept loop silently
swallows the "use of closed network connection" error while logging any
other accept error. -/
theorem close_shutdown_behaviour (lc : Bool) (n : Nat) (ctxErr : String) (drained : Bool) :
    (Server.close { hasListener := true, listenerClosed := lc, running := true, inflight := n }
        ctxErr drained).1.running = false ∧
    (Server.close { hasListener := true, listenerClosed := lc, running := true, inflight := n }
        ctxErr drained).1.inflight = n ∧
    (Server.close { hasListener := true, listenerClosed := lc, running := true, inflight := n }
        ctxErr true).2 = none ∧
    (Server.close { hasListener := true, listenerClosed := lc, running := true, inflight := n }
        ctxErr false).2 = some ctxErr ∧
    acceptLoopLog "accept tcp 127.0.0.1:8080: use of closed network connection" = none ∧
    acceptLoopLog "accept tcp 127.0.0.1:8080: too many open files"
      = some "rpc: accept: accept tcp 127.0.0.1:8080: too many open files" := by
  refine ⟨?_, ?_, rfl, rfl, by decide, by decide⟩
  · cases drained <;> rfl
  · cases drained <;> rfl

/-- C10: `ServeRequest` on a server that is not running returns the error
"rpc: server has stopped" immediately: nothing is read from the
connection (no header read, no body read), no response is written, and
the call wait-group is never touched. -/
theorem serveRequest_stopped_server (conn : Nat) (ev : ConnEvent) :
    Server.ServeRequest false conn ev =
      { result := some "rpc: server has stopped", written := [], headerRead := false,
        bodyReads := [], callGroupAdds := 0, callGroupDones := 0 } := by
  rfl

theorem registerLoop_errs_split (base : String) : ∀ (svcs : List String)
    (md map routers : List String) (calls : List HookCall) (errs : List String),
    (registerLoop base svcs md map routers calls errs).2.2.2
      = errs ++ (registerLoop base svcs md map routers calls []).2.2.2 := by
  intro svcs
  induction svcs with
  | nil => intros; simp [registerLoop]
  | cons s rest ih =>
    intro md map routers calls errs
    simp only [registerLoop]
    by_cases h : s ∈ map
    · simp only [h, if_true]
      rw [ih]
      conv_rhs => rw [ih]
      simp
    · simp only [h, if_false]
      rw [ih]

theorem registerLoop_map_eq (base : String) : ∀ (svcs : List String)
    (md map routers : List String) (calls : List HookCall) (errs : List String),
    (registerLoop base svcs md map routers calls errs).1 = map ++ svcs := by
  intro svcs
  induction svcs with
  | nil => intros; simp [registerLoop]
  | cons s rest ih =>
    intro md map routers calls errs
    simp only [registerLoop]
    rw [ih]
    simp

theorem registerLoop_routers_eq (base : String) : ∀ (svcs : List String)
    (md map routers : List String) (calls : List HookCall) (errs : List String),
    (registerLoop base svcs md map routers calls errs).2.1 = routers ++ svcs := by
  intro svcs
  induction svcs with
  | nil => intros; simp [registerLoop]
  | cons s rest ih =>
    intro md map routers calls errs
    simp only [registerLoop]
    rw [ih]
    simp

theorem registerLoop_success_nodup (base : String) : ∀ (svcs : List String)
    (md map routers : List String) (calls : List HookCall),
    (registerLoop base svcs md map routers calls []).2.2.2 = [] →
    map.Nodup → (map ++ svcs).Nodup := by
  intro svcs
  induction svcs with
  | nil => intro md map routers calls _ hm; simpa using hm
  | cons s rest ih =>
    intro md map routers calls herrs hm
    simp only [registerLoop] at herrs
    by_cases h : s ∈ map
    · rw [if_pos h, registerLoop_errs_split] at herrs
      simp at herrs
    · rw [if_neg h] at herrs
      have hstep : (map ++ [s]).Nodup := by
        simp [List.nodup_append, hm, h]
      have := ih (md ++ [base]) (map ++ [s]) (routers ++ [s]) _ herrs hstep
      simpa [List.append_assoc] using this

theorem registerLoop_dup_fatal (base : String) : ∀ (svcs : List String)
    (md map routers : List String) (calls : List HookCall) (errs : List String) (p : String),
    p ∈ svcs → p ∈ map →
    (registerLoop base svcs md map routers calls errs).2.2.2 ≠ [] := by
  intro svcs
  induction svcs with
  | nil => intro _ _ _ _ _ p hp; simp at hp
  | cons s rest ih =>
    intro md map routers calls errs p hp hmap
    simp only [registerLoop]
    rcases List.mem_cons.mp hp with rfl | hrest
    · rw [if_pos hmap, registerLoop_errs_split]
      simp
    · have hmap2 : p ∈ map ++ [s] := List.mem_append.mpr (Or.inl hmap)
      by_cases h : s ∈ map
      · rw [if_pos h]
        exact ih (md ++ [base]) (map ++ [s]) (routers ++ [s]) _ _ p hrest hmap2
      · rw [if_neg h]
        exact ih (md ++ [base]) (map ++ [s]) (routers ++ [s]) _ _ p hrest hmap2

theorem pathChar_of_snameChar (c : Char) (h : snameChar c = true) : pathChar c = true := by
  simp [pathChar, h]

theorem checkSname_none_all (s : String) (h : CheckSname s = none) :
    s.data.all snameChar = true := by
  by_cases hs : s.data.all snameChar = true
  · exact hs
  · simp [CheckSname, hs] at h

theorem uriEncode_pathOK : ∀ l : List String,
    (∀ s ∈ l, s.data.all snameChar = true) → pathOK (URIEncode l) = true := by
  intro l
  induction l with
  | nil => intro _; rfl
  | cons s rest ih =>
    intro h
    have hs := h s (List.mem_cons_self s rest)
    have hrest := ih (fun t ht => h t (List.mem_cons_of_mem s ht))
    have hstep : (('/' :: s.data).all pathChar) = true := by
      simp only [List.all_cons, Bool.and_eq_true]
      constructor
      · decide
      · rw [List.all_eq_true] at hs ⊢
        exact fun c hc => pathChar_of_snameChar c (hs c hc)
    show ((List.map (fun s => '/' :: s.data) (s :: rest)).flatten).all pathChar = true
    rw [List.map_cons, List.flatten_cons, List.all_append, Bool.and_eq_true]
    exact ⟨hstep, hrest⟩

theorem newServicePaths_pathOK (segs methods : List String)
    (hsegs : ∀ s ∈ segs, CheckSname s = none)
    (hms : ∀ m ∈ methods, CheckSname m = none) :
    ∀ p ∈ NewServicePaths segs methods, pathOK p = true := by
  intro p hp
  rcases List.mem_map.mp hp with ⟨m, hm, rfl⟩
  apply uriEncode_pathOK
  intro s hs
  rcases List.mem_append.mp hs with h | h
  · exact checkSname_none_all s (hsegs s h)
  · rcases List.mem_singleton.mp h with rfl
    exact checkSname_none_all s (hms s hm)

/-- C7: after every successful registration the registry's path set is
duplicate-free, every registered path (built by the URL-style builder
from `CheckSname`-validated group/name segments and method-name
segments) matches the sname character class extended with the slash,
and the routers list is sorted lexicographically; registering a path
already present in the registry is fatal — `register` refuses with an
error instead of committing a partial registration. -/
theorem register_registry_invariants (st : RegState) (segs methods metadata : List String)
    (hnd : st.serviceMap.Nodup)
    (hok : ∀ p ∈ st.serviceMap, pathOK p = true)
    (hsegs : ∀ s ∈ segs, CheckSname s = none)
    (hms : ∀ m ∈ methods, CheckSname m = none) :
    (∀ st2 calls,
        Server.register st (NewServicePaths segs methods) metadata = Except.ok (st2, calls) →
        st2.serviceMap.Nodup ∧ (∀ p ∈ st2.serviceMap, pathOK p = true) ∧
        List.Sorted strLeP st2.routers) ∧
    (∀ p ∈ NewServicePaths segs methods, p ∈ st.serviceMap →
        ∃ e, Server.register st (NewServicePaths segs methods) metadata
          = Except.error e) := by
  constructor
  · intro st2 calls hreg
    simp only [Server.register] at hreg
    split at hreg
    next => exact Except.noConfusion hreg
    next =>
      split at hreg
      next herrs =>
        rw [Except.ok.injEq, Prod.mk.injEq] at hreg
        obtain ⟨h1, h2⟩ := hreg
        subst h1
        have hmap := registerLoop_map_eq st.baseMetadata (NewServicePaths segs methods)
          metadata st.serviceMap st.routers [] []
        refine ⟨?_, ?_, ?_⟩
        · rw [hmap]
          exact registerLoop_success_nodup st.baseMetadata (NewServicePaths segs methods)
            metadata st.serviceMap st.routers [] herrs hnd
        · rw [hmap]
          intro p hp
          rcases List.mem_append.mp hp with h | h
          · exact hok p h
          · exact newServicePaths_pathOK segs methods hsegs hms p h
        · haveI : IsTotal String strLeP := by
            refine ⟨fun a b => ?_⟩
            by_cases h1 : strLe a.data b.data = true
            · exact Or.inl h1
            · refine Or.inr ?_
              have h := strLe_total a.data b.data
              cases hx : strLe a.data b.data
              · simpa [hx] using h
              · exact absurd hx h1
          haveI : IsTrans String strLeP :=
            ⟨fun a b c => strLe_trans a.data b.data c.data⟩
          exact List.sorted_insertionSort strLeP _
      next => exact Except.noConfusion hreg
  · intro p hp hmem
    have hne : NewServicePaths segs methods ≠ [] := List.ne_nil_of_mem hp
    have hfatal := registerLoop_dup_fatal st.baseMetadata (NewServicePaths segs methods)
      metadata st.serviceMap st.routers [] [] p hp hmem
    refine ⟨String.join (registerLoop st.baseMetadata (NewServicePaths segs methods)
      metadata st.serviceMap st.routers [] []).2.2.2, ?_⟩
    simp only [Server.register]
    rw [if_neg hne, if_neg hfatal]

/-- Witness for C7 at a concrete empty registry, one group segment, one
method and one metadata entry. -/
theorem register_registry_invariants_witness :
    (∀ s ∈ (["arith"] : List String), CheckSname s = none) ∧
    (∀ m ∈ (["mul"] : List String), CheckSname m = none) ∧
    ((∀ st2 calls,
        Server.register { serviceMap := [], routers := [], baseMetadata := "bm" }
            (NewServicePaths ["arith"] ["mul"]) ["md"] = Except.ok (st2, calls) →
        st2.serviceMap.Nodup ∧ (∀ p ∈ st2.serviceMap, pathOK p = true) ∧
        List.Sorted strLeP st2.routers) ∧
     (∀ p ∈ NewServicePaths ["arith"] ["mul"],
        p ∈ ({ serviceMap := [], routers := [], baseMetadata := "bm" } : RegState).serviceMap →
        ∃ e, Server.register { serviceMap := [], routers := [], baseMetadata := "bm" }
          (NewServicePaths ["arith"] ["mul"]) ["md"] = Except.error e)) :=
  ⟨by decide, by decide,
   register_registry_invariants { serviceMap := [], routers := [], baseMetadata := "bm" }
     ["arith"] ["mul"] ["md"] (by decide) (by decide) (by decide) (by decide)⟩

/-- C9 (code bug): during registration the register hook runs first on
the server-wide container and then on the scoped container, but the
base metadata is appended to the loop-carried metadata slice once per
service, so with a receiver producing two services the second service's
hook invocations receive the base metadata twice instead of exactly
once: here they receive `["m", "b", "b"]` while the claim requires
`["m", "b"]`. -/
theorem register_base_metadata_accumulates :
    Server.register { serviceMap := [], routers := [], baseMetadata := "b" }
        ["/arith/mul", "/arith/div"] ["m"]
      = Except.ok
          ({ serviceMap := ["/arith/mul", "/arith/div"],
             routers := ["/arith/div", "/arith/mul"], baseMetadata := "b" },
           [{ tag := ContainerTag.serverWide, path := "/arith/mul", metadata := ["m", "b"] },
            { tag := ContainerTag.scoped, path := "/arith/mul", metadata := ["m", "b"] },
            { tag := ContainerTag.serverWide, path := "/arith/div",
              metadata := ["m", "b", "b"] },
            { tag := ContainerTag.scoped, path := "/arith/div",
              metadata := ["m", "b", "b"] }]) ∧
    (["m", "b", "b"] : List String) ≠ ["m", "b"] := by
  exact ⟨rfl, by decide⟩
